import Mathlib

/-!
Verification of the fee module (`app/feeParam.go`): the min-fee ante
decorator (`FeeParamDecorator`), the fee-deduction ante decorator
(`DeductFeeDecorator`), the fee parameter type (`FeeParams`) and its
validator (`ValidateFee`).

Embedding conventions:
* The SDK decimal type (`sdk.Dec`) is an arbitrary-precision integer scaled
  by `10^18`; `Mul` multiplies the internal integers and chops the extra
  `10^18` factor with banker's rounding, `Ceil` rounds up to an integer
  value using a truncated quotient/remainder pair, `RoundInt` chops the
  scale factor with banker's rounding.  `big.Int` quotient/remainder
  (`QuoRem`) truncates toward zero, which is `Int.tdiv` / `Int.tmod`.
* `sdk.Int` amounts are modelled as `Int` (the 256-bit bound is out of
  scope for these claims), addresses and denominations as `String`.
* Host collaborators (parameter store, account keeper, bank keeper) are
  capability records, following the interface contracts in the spec; the
  record fields that are functions stand for the host's implementations.
* Each ante handler's tail call `next(ctx, tx, simulate)` is represented
  symbolically by a `next` result constructor carrying the exact arguments
  passed, so "calls next with the unchanged context/tx/flag" is a plain
  equation.  The deduction handler additionally returns the list of bank
  transfer calls it issued, so "never invokes the transfer primitive" is
  the equation `trace = []`.
-/

namespace FeeApp

abbrev Denom := String

abbrev Addr := String

/-- Internal representation of an SDK decimal: the integer `i` denotes the
rational number `i / 10^18`. -/
structure Dec where
  i : Int
deriving Repr, DecidableEq

/-- The SDK decimal scale factor `10^18`. -/
def decPrecision : Int := 10 ^ 18

/-- Half the scale factor, the banker's-rounding threshold (`fivePrecision`
in the SDK decimal code). -/
def fivePrecision : Int := 5 * 10 ^ 17

/-- The SDK `chopPrecisionAndRound` on a non-negative input: divide by
`10^18` and round half-to-even (quotient and remainder are the truncated
pair, which agrees with floor division here since the input is
non-negative). -/
def chopRoundNonneg (d : Int) : Int :=
  let quo := Int.tdiv d decPrecision
  let rem := Int.tmod d decPrecision
  if rem = 0 then quo
  else if rem < fivePrecision then quo
  else if fivePrecision < rem then quo + 1
  else if Int.tmod quo 2 = 0 then quo else quo + 1

/-- The SDK `chopPrecisionAndRound`: on a negative input it negates,
handles the non-negative case, and negates the result. -/
def chopPrecisionAndRound (d : Int) : Int :=
  if d < 0 then - chopRoundNonneg (-d) else chopRoundNonneg d

/-- `sdk.NewDec n`: the decimal with integer value `n` (internal
representation `n * 10^18`). -/
def NewDec (n : Int) : Dec := ⟨n * decPrecision⟩

/-- `sdk.Dec.Mul`: multiply the internal representations and chop the extra
`10^18` factor with banker's rounding. -/
def Dec.Mul (d d2 : Dec) : Dec := ⟨chopPrecisionAndRound (d.i * d2.i)⟩

/-- `sdk.Dec.Ceil`: smallest integer-valued decimal `≥ d`.  The SDK takes
the truncated quotient/remainder of the internal representation by `10^18`
(`big.Int.QuoRem`), returns the quotient as an integer decimal when the
remainder is zero or negative, and the quotient plus one otherwise. -/
def Dec.Ceil (d : Dec) : Dec :=
  let quo := Int.tdiv d.i decPrecision
  let rem := Int.tmod d.i decPrecision
  if rem = 0 then ⟨quo * decPrecision⟩
  else if rem < 0 then ⟨quo * decPrecision⟩
  else ⟨(quo + 1) * decPrecision⟩

/-- `sdk.Dec.RoundInt`: chop the `10^18` scale with banker's rounding,
yielding an `sdk.Int`. -/
def Dec.RoundInt (d : Dec) : Int := chopPrecisionAndRound d.i

/-- The rational value denoted by a decimal. -/
def Dec.val (d : Dec) : ℚ := (d.i : ℚ) / ((10 : ℚ) ^ 18)

/-- An `sdk.Coin`: a denomination with an integer amount. -/
structure Coin where
  denom : Denom
  amount : Int
deriving Repr, DecidableEq

abbrev Coins := List Coin

/-- An `sdk.DecCoin`: a denomination with a decimal amount. -/
structure DecCoin where
  denom : Denom
  amount : Dec
deriving Repr, DecidableEq

abbrev DecCoins := List DecCoin

/-- `sdk.DecCoins.IsZero`: every amount in the set is zero (vacuously true
for the empty set). -/
def DecCoins.IsZero (cs : DecCoins) : Bool := cs.all (fun c => c.amount.i == 0)

/-- `sdk.DecCoins.Empty`: the set has no entries. -/
def DecCoins.Empty (cs : DecCoins) : Bool := cs.isEmpty

/-- `sdk.Coins.AmountOf`: the amount recorded for a denomination, zero when
the denomination is absent. -/
def Coins.AmountOf (cs : Coins) (d : Denom) : Int :=
  match cs.find? (fun c => c.denom == d) with
  | some c => c.amount
  | none => 0

/-- Modelled from the spec: the SDK comparison `Coins.IsAnyGTE` is not part
of this repository's sources; the spec's decision rule reads "the
transaction's declared fee set must contain at least one denomination whose
amount is ≥ the corresponding required amount" (any-greater-or-equal, not
all). -/
def Coins.IsAnyGTE (cs req : Coins) : Bool :=
  cs.any (fun c => decide (Coins.AmountOf req c.denom ≤ c.amount))

/-- `sdk.Coins.IsZero`: every amount in the set is zero. -/
def Coins.IsZero (cs : Coins) : Bool := cs.all (fun c => c.amount == 0)

/-- Modelled from the spec: the SDK well-formedness check `Coins.IsValid`
is not part of this repository's sources; the spec requires "no negative or
duplicate-denomination entries" in the fee set. -/
def Coins.IsValid (cs : Coins) : Bool :=
  cs.all (fun c => decide (0 ≤ c.amount)) && decide (cs.map (fun c => c.denom)).Nodup

/-- The errors returned by the two decorators and `DeductFees`, carrying
the data interpolated into the corresponding messages in the source. -/
inductive Err where
  | txDecode
  | insufficientFee (got required : Coins)
  | invalidFeeAmount (fees : Coins)
  | unknownAddress (payer : Addr)
  | insufficientFunds (wrapped : String)
deriving Repr, DecidableEq

/-- Whether an error is registered under the `ErrInsufficientFee` code:
both the min-fee rejection and the invalid-fee-amount rejection in
`DeductFees` wrap `sdkerrors.ErrInsufficientFee`. -/
def Err.IsInsufficientFee : Err → Bool
  | .insufficientFee _ _ => true
  | .invalidFeeAmount _ => true
  | _ => false

/-- The slice of `sdk.Context` the source consults: `ctx.IsCheckTx()`. -/
structure Context where
  isCheckTx : Bool
deriving Repr, DecidableEq

/-- A transaction implementing `sdk.FeeTx`: `GetFee`, `GetGas`,
`FeePayer`. -/
structure FeeTx where
  fee : Coins
  gas : Nat
  feePayer : Addr
deriving Repr, DecidableEq

/-- An `sdk.Tx` either implements `sdk.FeeTx` or fails the type assertion
`tx.(sdk.FeeTx)` at the top of both handlers. -/
inductive Tx where
  | feeTx (t : FeeTx)
  | nonFeeTx
deriving Repr, DecidableEq

/-- The `FeeParams` parameter type: minimum fee rates plus a burn
amount. -/
structure FeeParams where
  Fee : DecCoins
  BurnAmount : Int
deriving Repr, DecidableEq

/-- `NewFeeparam`. -/
def NewFeeparam (fee : DecCoins) (burnAmount : Int) : FeeParams :=
  { Fee := fee, BurnAmount := burnAmount }

/-- The argument of `ValidateFee` is a Go `interface\x7b\x7d`: either a
`FeeParams` value or a value of some other dynamic type (for which the type
assertion in `ValidateFee` fails). -/
inductive ParamCandidate where
  | ofFeeParams (p : FeeParams)
  | otherType
deriving Repr, DecidableEq

/-- The three error messages `ValidateFee` can produce. -/
inductive ParamError where
  | invalidParameterType
  | feeMustBePositive
  | burnAmountMustBePositive
deriving Repr, DecidableEq

/-- `ValidateFee`: reject a candidate that is not a `FeeParams`, whose fee
set is empty, or whose burn amount is not `≥ 0`. -/
def ValidateFee : ParamCandidate → Option ParamError
  | .otherType => some .invalidParameterType
  | .ofFeeParams v =>
    if DecCoins.Empty v.Fee then some .feeMustBePositive
    else if ¬ (0 ≤ v.BurnAmount) then some .burnAmountMustBePositive
    else none

/-- `FeeParamDecorator`: its single field is the `baseapp.ParamStore`.
The store is modelled by its contents under the key `"fee"`: `some p` when
the host store holds the parameter value `p`, `none` for the zero (nil)
interface value.  The spec describes the store read as a synchronous
parameter lookup with no other observable behavior. -/
structure FeeParamDecorator where
  ParamStore : Option FeeParams

/-- `NewFeeParamDecorator`. -/
def NewFeeParamDecorator (params : Option FeeParams) : FeeParamDecorator :=
  { ParamStore := params }

/-- Result of an ante decorator that issues no bank transfers: a panic
escaping the handler, a returned error, or the tail call
`next(ctx, tx, simulate)` represented symbolically with the exact
arguments passed. -/
inductive FPResult where
  | panicked
  | error (e : Err)
  | next (ctx : Context) (tx : Tx) (simulate : Bool)
deriving Repr, DecidableEq

/-- Go's `int64(gas)` conversion applied to the `uint64` gas limit
(`feeTx.GetGas()`): the conversion keeps the 64-bit two's-complement
pattern, so values `< 2^63` are unchanged and values in `[2^63, 2^64)`
wrap to `gas - 2^64`.  The `% 2^64` makes the model total on `Nat`; a Go
`uint64` is always `< 2^64`, where this is the identity reduction. -/
def int64OfUint64 (g : Nat) : Int :=
  if g % 2 ^ 64 < 2 ^ 63 then ((g % 2 ^ 64 : Nat) : Int)
  else ((g % 2 ^ 64 : Nat) : Int) - 2 ^ 64

/-- `sdk.NewCoin` validates the new coin and panics on a negative amount
(`none` here).  The SDK also validates the denomination string against a
host-side regular expression; denominations are opaque strings in this
model (spec §3), so that check is not modelled. -/
def NewCoin (denom : Denom) (amount : Int) : Option Coin :=
  if amount < 0 then none else some (Coin.mk denom amount)

/-- The per-entry amount computation of the required-fee loop:
`fee := gp.Amount.Mul(glDec)` followed by `fee.Ceil().RoundInt()`, with
`glDec = sdk.NewDec(int64(gas))` — note the wrapping `uint64` to `int64`
conversion of the gas limit. -/
def requiredFeeAmount (rate : Dec) (gas : Nat) : Int :=
  Dec.RoundInt (Dec.Ceil (Dec.Mul rate (NewDec (int64OfUint64 gas))))

/-- The required-fee slice built by `FeeParamDecorator.AnteHandle`: the Go
loop allocates `make(sdk.Coins, len(minGasPrices))` and writes slot `i`
from entry `i` of `minGasPrices` via `sdk.NewCoin`, in order; a `NewCoin`
panic (negative required amount, possible through the wrapped gas
conversion) aborts the loop, hence the `Option`. -/
def requiredFees (minGasPrices : DecCoins) (gas : Nat) : Option Coins :=
  minGasPrices.mapM (fun gp => NewCoin gp.denom (requiredFeeAmount gp.amount gas))

/-- The body of `FeeParamDecorator.AnteHandle` parameterised by the value
held in the local variable `minGasPrices` after the `ParamStore.Get` call:
the `FeeTx` type assertion, the `ctx.IsCheckTx() && !simulate` guard, the
`!minGasPrices.IsZero()` guard, the required-fee loop (whose `NewCoin`
panic escapes the handler), and the `IsAnyGTE` decision with its
`ErrInsufficientFee` rejection carrying the declared (`feeCoins`) and
required fee sets. -/
def feeParamAnteCore (minGasPrices : DecCoins) (ctx : Context) (tx : Tx)
    (simulate : Bool) : FPResult :=
  match tx with
  | .nonFeeTx => .error .txDecode
  | .feeTx feeTx =>
    let feeCoins := feeTx.fee
    let gas := feeTx.gas
    if ctx.isCheckTx && !simulate then
      if !(DecCoins.IsZero minGasPrices) then
        match requiredFees minGasPrices gas with
        | none => .panicked
        | some required =>
          if !(Coins.IsAnyGTE feeCoins required) then
            .error (.insufficientFee feeCoins required)
          else
            .next ctx tx simulate
      else
        .next ctx tx simulate
    else
      .next ctx tx simulate

/-- `FeeParamDecorator.AnteHandle`.  The source declares
`var minGasPrices sdk.DecCoins` — a nil (empty) slice — and then calls
`mfd.ParamStore.Get(ctx, ParamStoreKeyfee, minGasPrices)`, passing the
variable BY VALUE rather than as the pointer `&minGasPrices`.  Go value
semantics make it impossible for the callee to rebind the caller's
variable, and a nil slice has no backing array to write through, so after
the call `minGasPrices` is still the empty slice whatever the store holds;
the handler's behavior is therefore `feeParamAnteCore` at the empty
`minGasPrices`, for every store contents. -/
def FeeParamDecorator.AnteHandle (mfd : FeeParamDecorator) (ctx : Context)
    (tx : Tx) (simulate : Bool) : FPResult :=
  feeParamAnteCore [] ctx tx simulate

/-- The slice of `authtypes.AccountI` the source consults:
`acc.GetAddress()`. -/
structure Account where
  address : Addr
deriving Repr, DecidableEq

/-- `AccountI.GetAddress`. -/
def Account.GetAddress (acc : Account) : Addr := acc.address

/-- Modelled from the spec: the `ante.AccountKeeper` collaborator is not
part of this repository's sources; per the spec it exposes an account
lookup `getAccount(address) -> Account | absent`, and the source
additionally resolves the collector module account's address
(`GetModuleAddress`), which is `nil` exactly when the collector account is
not configured. -/
structure AccountKeeper where
  GetModuleAddress : String → Option Addr
  GetAccount : Addr → Option Account

/-- Modelled from the spec: the `authtypes.BankKeeper` collaborator is not
part of this repository's sources; per the spec it exposes an atomic
`transfer(fromAddress, toModuleAccount, amounts) -> success | failure`
primitive, modelled as returning `none` on success and `some msg` with the
failure's message on failure. -/
structure BankKeeper where
  SendCoinsFromAccountToModule : Addr → String → Coins → Option String

/-- `authtypes.FeeCollectorName`. -/
def feeCollectorName : String := "fee_collector"

/-- One invocation of the bank transfer primitive, recorded so that the
theorems can state which transfers a handler issued. -/
structure TransferCall where
  fromAddr : Addr
  recipientModule : String
  amt : Coins
deriving Repr, DecidableEq

/-- `DeductFees`: reject an ill-formed fee set with an
`ErrInsufficientFee` wrap before any transfer; otherwise invoke
`SendCoinsFromAccountToModule` once, wrapping a failure as
`ErrInsufficientFunds`.  The second component lists the transfer calls
issued. -/
def DeductFees (bankKeeper : BankKeeper) (acc : Account) (fees : Coins) :
    Option Err × List TransferCall :=
  if !(Coins.IsValid fees) then
    (some (.invalidFeeAmount fees), [])
  else
    match bankKeeper.SendCoinsFromAccountToModule (Account.GetAddress acc)
        feeCollectorName fees with
    | some msg =>
      (some (.insufficientFunds msg),
        [⟨Account.GetAddress acc, feeCollectorName, fees⟩])
    | none =>
      (none, [⟨Account.GetAddress acc, feeCollectorName, fees⟩])

/-- `DeductFeeDecorator`: account keeper, bank keeper, and a
`baseapp.ParamStore` field. -/
structure DeductFeeDecorator where
  ak : AccountKeeper
  bankKeeper : BankKeeper
  ParamStore : Option FeeParams

/-- `NewDeductFeeDecorator`: the source's struct literal sets only `ak`
and `bankKeeper`; the `ParamStore` field is omitted and is left at the Go
zero value for an interface, i.e. nil (`none`).  The `params` argument is
never used. -/
def NewDeductFeeDecorator (ak : AccountKeeper) (bk : BankKeeper)
    (params : Option FeeParams) : DeductFeeDecorator :=
  { ak := ak, bankKeeper := bk, ParamStore := none }

/-- Result of the deduction decorator: the collector-account `panic`, a
returned error, or the tail call `next(ctx, tx, simulate)` represented
symbolically. -/
inductive DFResult where
  | panicked (moduleName : String)
  | error (e : Err)
  | next (ctx : Context) (tx : Tx) (simulate : Bool)
deriving Repr, DecidableEq

/-- `DeductFeeDecorator.AnteHandle`: the `FeeTx` type assertion, the
collector-account panic check, the fee payer account lookup with its
`ErrUnknownAddress` rejection, and — when the declared fee is non-zero —
the `DeductFees` call.  The second component lists the bank transfer calls
issued. -/
def DeductFeeDecorator.AnteHandle (dfd : DeductFeeDecorator) (ctx : Context)
    (tx : Tx) (simulate : Bool) : DFResult × List TransferCall :=
  match tx with
  | .nonFeeTx => (.error .txDecode, [])
  | .feeTx feeTx =>
    match dfd.ak.GetModuleAddress feeCollectorName with
    | none => (.panicked feeCollectorName, [])
    | some _ =>
      let feePayer := feeTx.feePayer
      match dfd.ak.GetAccount feePayer with
      | none => (.error (.unknownAddress feePayer), [])
      | some feePayerAcc =>
        if !(Coins.IsZero feeTx.fee) then
          match DeductFees dfd.bankKeeper feePayerAcc feeTx.fee with
          | (some e, calls) => (.error e, calls)
          | (none, calls) => (.next ctx tx simulate, calls)
        else
          (.next ctx tx simulate, [])

/-! ### Arithmetic helper lemmas -/

theorem tdiv_prec_eq (x : Int) :
    Int.tdiv x decPrecision =
      if 0 ≤ x then x / decPrecision else -((-x) / decPrecision) := by
  unfold decPrecision
  split
  case isTrue h => exact Int.tdiv_eq_ediv h (by norm_num)
  case isFalse h =>
    have h2 : Int.tdiv x (10 ^ 18) = -(Int.tdiv (-x) (10 ^ 18)) := by
      rw [Int.neg_tdiv]
      ring
    rw [h2, Int.tdiv_eq_ediv (by omega) (by norm_num)]

theorem tmod_prec_eq (x : Int) :
    Int.tmod x decPrecision =
      if 0 ≤ x then x % decPrecision else -((-x) % decPrecision) := by
  have hd := Int.tmod_def x decPrecision
  have hb := tdiv_prec_eq x
  unfold decPrecision at *
  split <;> omega

theorem chopRoundNonneg_exact (y : Int) :
    chopRoundNonneg (y * decPrecision) = y := by
  unfold chopRoundNonneg
  have hrem : Int.tmod (y * decPrecision) decPrecision = 0 :=
    Int.mul_tmod_left y decPrecision
  have hquo : Int.tdiv (y * decPrecision) decPrecision = y :=
    Int.mul_tdiv_cancel y (by unfold decPrecision; norm_num)
  simp [hrem, hquo]

theorem chop_exact (y : Int) :
    chopPrecisionAndRound (y * decPrecision) = y := by
  unfold chopPrecisionAndRound
  split
  case isTrue h =>
    have hneg : -(y * decPrecision) = (-y) * decPrecision := by ring
    rw [hneg, chopRoundNonneg_exact]
    ring
  case isFalse h => exact chopRoundNonneg_exact y

theorem roundInt_scaled (y : Int) : Dec.RoundInt ⟨y * decPrecision⟩ = y :=
  chop_exact y

theorem mul_newDec (a : Int) (n : Int) :
    Dec.Mul ⟨a⟩ (NewDec n) = ⟨a * n⟩ := by
  unfold Dec.Mul NewDec
  have h : a * (n * decPrecision) = (a * n) * decPrecision := by ring
  rw [h, chop_exact]

theorem ceil_roundInt_eq (x : Int) :
    Dec.RoundInt (Dec.Ceil ⟨x⟩) = -((-x) / decPrecision) := by
  have h1 := tdiv_prec_eq x
  have h2 := tmod_prec_eq x
  simp only [Dec.Ceil]
  split
  case isTrue h =>
    rw [roundInt_scaled]
    unfold decPrecision at *
    by_cases hx : 0 ≤ x <;>
      simp only [hx, if_true, if_false] at h1 h2 <;> omega
  case isFalse h =>
    split
    case isTrue h' =>
      rw [roundInt_scaled]
      unfold decPrecision at *
      by_cases hx : 0 ≤ x <;>
        simp only [hx, if_true, if_false] at h1 h2 <;> omega
    case isFalse h' =>
      rw [roundInt_scaled]
      unfold decPrecision at *
      by_cases hx : 0 ≤ x <;>
        simp only [hx, if_true, if_false] at h1 h2 <;> omega

theorem neg_ediv_prec_eq_ceil (x : Int) :
    -((-x) / decPrecision) = ⌈(x : ℚ) / ((10 : ℚ) ^ 18)⌉ := by
  have hfl : ⌊((-x : Int) : ℚ) / ((10 ^ 18 : Nat) : ℚ)⌋ = (-x) / ((10 ^ 18 : Nat) : Int) :=
    Rat.floor_intCast_div_natCast (-x) (10 ^ 18)
  have hc : ⌈(x : ℚ) / ((10 : ℚ) ^ 18)⌉ = -⌊-((x : ℚ) / ((10 : ℚ) ^ 18))⌋ := by
    rw [Int.floor_neg]
    simp
  rw [hc]
  have hcast : -((x : ℚ) / ((10 : ℚ) ^ 18)) = ((-x : Int) : ℚ) / (((10 ^ 18 : Nat) : Int) : ℚ) := by
    push_cast
    ring
  rw [hcast]
  unfold decPrecision
  push_cast at hfl ⊢
  omega

/-- The central arithmetic fact: the source's required-amount computation
`gp.Amount.Mul(glDec).Ceil().RoundInt()` equals the exact rational ceiling
`⌈rate * int64(gas)⌉` of the rate times the wrapped gas value — the
decimal multiplication by an integer-valued decimal is exact (the banker's
rounding step has a zero remainder), and the ceiling/round steps produce
the exact integer ceiling. -/
theorem requiredFeeAmount_eq_ceil (rate : Dec) (g : Nat) :
    requiredFeeAmount rate g = ⌈rate.val * ((int64OfUint64 g : Int) : ℚ)⌉ := by
  obtain ⟨a⟩ := rate
  unfold requiredFeeAmount
  rw [mul_newDec, ceil_roundInt_eq, neg_ediv_prec_eq_ceil]
  have hval : Dec.val ⟨a⟩ * ((int64OfUint64 g : Int) : ℚ)
      = ((a * int64OfUint64 g : Int) : ℚ) / ((10 : ℚ) ^ 18) := by
    unfold Dec.val
    push_cast
    ring
  rw [hval]

/-- Below `2^63` the wrapping `uint64` to `int64` conversion is the
identity. -/
theorem int64OfUint64_of_lt (g : Nat) (h : g < 2 ^ 63) :
    int64OfUint64 g = (g : Int) := by
  unfold int64OfUint64
  have hm : g % 2 ^ 64 = g := Nat.mod_eq_of_lt (by omega)
  rw [hm]
  split
  case isTrue => rfl
  case isFalse hh => omega

/-! ### Claim theorems -/

/-- C2 (amended): for every configured (denomination, rate) pair the
required amount computed by the active min-fee check equals the exact
rational ceiling `⌈rate * int64(g)⌉` of the rate times the result of the
source's wrapping `uint64` to `int64` gas conversion; whenever the gas
limit is below `2^63` — where that conversion is the identity — it equals
the spec's `⌈rate * g⌉`. -/
theorem c2_required_fee_is_exact_ceil (minGasPrices : DecCoins) (g : Nat) :
    (∀ gp ∈ minGasPrices,
        requiredFeeAmount gp.amount g
          = ⌈gp.amount.val * ((int64OfUint64 g : Int) : ℚ)⌉)
      ∧ (g < 2 ^ 63 → ∀ gp ∈ minGasPrices,
          requiredFeeAmount gp.amount g = ⌈gp.amount.val * (g : ℚ)⌉) := by
  constructor
  · intro gp _
    exact requiredFeeAmount_eq_ceil gp.amount g
  · intro hg gp _
    rw [requiredFeeAmount_eq_ceil, int64OfUint64_of_lt g hg]
    norm_cast

/-- Counterexample for C2 as originally stated: at rate 1.0 and gas limit
`2^63` the source computes the required amount from the wrapped gas
`int64(2^63) = -(2^63)`, so the computed amount is `-(2^63)` and not
`⌈1.0 * 2^63⌉ = 2^63`. -/
theorem c2_counterexample_wrapped_gas :
    requiredFeeAmount ⟨(10 : Int) ^ 18⟩ (2 ^ 63) = -((2 : Int) ^ 63)
      ∧ requiredFeeAmount ⟨(10 : Int) ^ 18⟩ (2 ^ 63)
          ≠ ⌈Dec.val ⟨(10 : Int) ^ 18⟩ * ((2 ^ 63 : Nat) : ℚ)⌉ := by
  refine ⟨by decide, ?_⟩
  have hv : Dec.val ⟨(10 : Int) ^ 18⟩ * ((2 ^ 63 : Nat) : ℚ)
      = ((2 ^ 63 : Int) : ℚ) := by
    unfold Dec.val
    push_cast
    norm_num
  rw [hv, Int.ceil_intCast]
  decide

/-- Witness for C2: rate 0.1 atom at gas limit 100 (below `2^63`) gives
the exact unwrapped requirement `⌈0.1 * 100⌉`. -/
theorem c2_required_fee_is_exact_ceil_witness :
    requiredFeeAmount ⟨100000000000000000⟩ 100
      = ⌈Dec.val ⟨100000000000000000⟩ * ((100 : Nat) : ℚ)⌉ :=
  (c2_required_fee_is_exact_ceil [⟨"atom", ⟨100000000000000000⟩⟩] 100).2
    (by decide) ⟨"atom", ⟨100000000000000000⟩⟩ (by decide)

/-- C7: `ValidateFee` accepts a candidate exactly when it is a `FeeParams`
value whose minimum-fee set is non-empty and whose burn amount is
non-negative; in every other case it returns an error. -/
theorem c7_validate_fee_iff (c : ParamCandidate) :
    ValidateFee c = none ↔
      ∃ p : FeeParams, c = .ofFeeParams p ∧ DecCoins.Empty p.Fee = false
        ∧ 0 ≤ p.BurnAmount := by
  cases c with
  | otherType => simp [ValidateFee]
  | ofFeeParams p =>
    simp only [ValidateFee]
    split_ifs with h1 h2 <;> simp_all

/-- C8: when the minimum fee rates held in the check's `minGasPrices`
variable are empty or all-zero, the min-fee check passes every `FeeTx`
through to `next` unchanged, whatever the declared fee. -/
theorem c8_zero_minimums_passthrough (minGasPrices : DecCoins) (ctx : Context)
    (t : FeeTx) (simulate : Bool)
    (hmin : DecCoins.IsZero minGasPrices = true) :
    feeParamAnteCore minGasPrices ctx (.feeTx t) simulate
      = .next ctx (.feeTx t) simulate := by
  simp only [feeParamAnteCore]
  split <;> simp [hmin]

/-- Witness for C8: a configured zero rate, a CheckTx non-simulation
context and an empty declared fee still pass through. -/
theorem c8_zero_minimums_passthrough_witness :
    feeParamAnteCore [⟨"atom", ⟨0⟩⟩] ⟨true⟩ (.feeTx ⟨[], 100, "payer"⟩) false
      = .next ⟨true⟩ (.feeTx ⟨[], 100, "payer"⟩) false :=
  c8_zero_minimums_passthrough [⟨"atom", ⟨0⟩⟩] ⟨true⟩ ⟨[], 100, "payer"⟩ false
    (by decide)

/-- C10: `NewDeductFeeDecorator` ignores its `params` argument: the
returned decorator's `ParamStore` field is the zero (nil) value, and only
the account keeper and bank keeper come from the arguments. -/
theorem c10_new_deduct_fee_decorator_ignores_params (ak : AccountKeeper)
    (bk : BankKeeper) (params : Option FeeParams) :
    (NewDeductFeeDecorator ak bk params).ParamStore = none
      ∧ (NewDeductFeeDecorator ak bk params).ak = ak
      ∧ (NewDeductFeeDecorator ak bk params).bankKeeper = bk :=
  ⟨rfl, rfl, rfl⟩

/-- C3: outside the active case (`ctx.IsCheckTx() && !simulate`) the
min-fee handler is a pure passthrough: it calls `next` with the unchanged
context, transaction and simulate flag, whatever the fetched minimums and
whatever the declared fee.  Stated for the handler body at every fetched
`minGasPrices` value and for `FeeParamDecorator.AnteHandle` itself. -/
theorem c3_passthrough_when_not_check_or_simulate (minGasPrices : DecCoins)
    (mfd : FeeParamDecorator) (ctx : Context) (t : FeeTx) (simulate : Bool)
    (h : ¬ (ctx.isCheckTx = true ∧ simulate = false)) :
    feeParamAnteCore minGasPrices ctx (.feeTx t) simulate
        = .next ctx (.feeTx t) simulate
      ∧ FeeParamDecorator.AnteHandle mfd ctx (.feeTx t) simulate
        = .next ctx (.feeTx t) simulate := by
  have hguard : (ctx.isCheckTx && !simulate) = false := by
    cases hc : ctx.isCheckTx <;> cases hs : simulate <;> simp_all
  constructor
  · unfold feeParamAnteCore
    simp [hguard]
  · unfold FeeParamDecorator.AnteHandle feeParamAnteCore
    simp [hguard]

/-- Witness for C3: during simulation in a CheckTx context, a transaction
declaring no fee at all passes through even though a minimum is set. -/
theorem c3_passthrough_witness :
    feeParamAnteCore [⟨"atom", ⟨100000000000000000⟩⟩] ⟨true⟩
        (.feeTx ⟨[], 100, "payer"⟩) true
      = .next ⟨true⟩ (.feeTx ⟨[], 100, "payer"⟩) true :=
  (c3_passthrough_when_not_check_or_simulate
    [⟨"atom", ⟨100000000000000000⟩⟩] ⟨none⟩ ⟨true⟩ ⟨[], 100, "payer"⟩ true
    (by decide)).1

/-- C4: because the source passes the `minGasPrices` variable to
`ParamStore.Get` by value (not as a pointer), the variable keeps its zero
(empty) value, the `!minGasPrices.IsZero()` guard is false and the
required-fee comparison is unreachable: for every store contents, context
and flag, `FeeParamDecorator.AnteHandle` never returns an
`ErrInsufficientFee`-class error, and every `FeeTx` passes through to
`next` unchanged. -/
theorem c4_insufficient_fee_unreachable (mfd : FeeParamDecorator)
    (ctx : Context) (tx : Tx) (simulate : Bool) :
    (∀ e : Err, FeeParamDecorator.AnteHandle mfd ctx tx simulate = .error e →
        Err.IsInsufficientFee e = false)
      ∧ (∀ t : FeeTx, tx = .feeTx t →
          FeeParamDecorator.AnteHandle mfd ctx tx simulate
            = .next ctx tx simulate) := by
  cases tx with
  | nonFeeTx =>
    constructor
    · intro e he
      unfold FeeParamDecorator.AnteHandle feeParamAnteCore at he
      simp at he
      simp [← he, Err.IsInsufficientFee]
    · intro t ht
      simp at ht
  | feeTx t =>
    have hnext : FeeParamDecorator.AnteHandle mfd ctx (.feeTx t) simulate
        = .next ctx (.feeTx t) simulate := by
      simp only [FeeParamDecorator.AnteHandle, feeParamAnteCore]
      split <;> simp [DecCoins.IsZero]
    constructor
    · intro e he
      rw [hnext] at he
      simp at he
    · intro t' ht
      exact hnext

/-- Witness for C4: with a non-zero minimum configured in the store, a
CheckTx, non-simulation `FeeTx` declaring no fee still passes through. -/
theorem c4_insufficient_fee_unreachable_witness :
    FeeParamDecorator.AnteHandle
        ⟨some ⟨[⟨"atom", ⟨100000000000000000⟩⟩], 0⟩⟩ ⟨true⟩
        (.feeTx ⟨[], 100, "payer"⟩) false
      = .next ⟨true⟩ (.feeTx ⟨[], 100, "payer"⟩) false :=
  (c4_insufficient_fee_unreachable
    ⟨some ⟨[⟨"atom", ⟨100000000000000000⟩⟩], 0⟩⟩ ⟨true⟩
    (.feeTx ⟨[], 100, "payer"⟩) false).2 ⟨[], 100, "payer"⟩ rfl

/-- C1 (amended): when the min-fee check is active (CheckTx context, not
simulating, non-zero minimums in the check's `minGasPrices` variable) and
the required-fee construction does not panic (every required amount
non-negative, as holds whenever the gas limit is below `2^63` with
non-negative rates), the transaction passes through to `next` unchanged
iff its declared fee set contains at least one denomination whose amount
is at least the required amount for that denomination; otherwise the
handler returns the insufficient-fee error carrying both the declared and
the required fee sets (and does not call `next`).  When a required amount
is negative — possible through the wrapping gas conversion — the handler
panics in `sdk.NewCoin` instead. -/
theorem c1_min_fee_decision_rule (minGasPrices : DecCoins) (ctx : Context)
    (t : FeeTx) (simulate : Bool) (required : Coins)
    (hchk : ctx.isCheckTx = true) (hsim : simulate = false)
    (hmin : DecCoins.IsZero minGasPrices = false)
    (hreq : requiredFees minGasPrices t.gas = some required) :
    (feeParamAnteCore minGasPrices ctx (.feeTx t) simulate
        = .next ctx (.feeTx t) simulate
      ↔ ∃ c ∈ t.fee, Coins.AmountOf required c.denom ≤ c.amount)
    ∧ ((¬ ∃ c ∈ t.fee, Coins.AmountOf required c.denom ≤ c.amount) →
        feeParamAnteCore minGasPrices ctx (.feeTx t) simulate
          = .error (.insufficientFee t.fee required)) := by
  have hany : Coins.IsAnyGTE t.fee required = true ↔
      ∃ c ∈ t.fee, Coins.AmountOf required c.denom ≤ c.amount := by
    simp [Coins.IsAnyGTE, List.any_eq_true]
  simp only [feeParamAnteCore, hchk, hsim, hreq]
  by_cases hg : Coins.IsAnyGTE t.fee required = true
  · simp [hmin, hg, hany.mp hg]
  · simp only [Bool.not_eq_true] at hg
    have hne : ¬ ∃ c ∈ t.fee, Coins.AmountOf required c.denom ≤ c.amount := by
      rw [← hany]
      simp [hg]
    simp [hmin, hg]
    intro x hx
    by_contra hle
    push_neg at hle
    exact hne ⟨x, hx, hle⟩

set_option maxRecDepth 100000 in
/-- Counterexample for C1 as originally stated: with rate 1.0 atom, gas
limit `2^63` and a declared fee of `10^19` atom — more than the claimed
requirement `⌈1.0 * 2^63⌉` — the active check neither passes the
transaction to `next` nor returns an insufficient-fee error: the wrapped
gas makes the required amount negative and `sdk.NewCoin` panics inside
the required-fee loop. -/
theorem c1_counterexample_panic_on_wrapped_gas :
    feeParamAnteCore [⟨"atom", ⟨(10 : Int) ^ 18⟩⟩] ⟨true⟩
        (.feeTx ⟨[⟨"atom", (10 : Int) ^ 19⟩], 2 ^ 63, "payer"⟩) false
      = .panicked
    ∧ ⌈Dec.val ⟨(10 : Int) ^ 18⟩ * ((2 ^ 63 : Nat) : ℚ)⌉ ≤ (10 : Int) ^ 19
    ∧ FPResult.panicked ≠ .next ⟨true⟩
        (.feeTx ⟨[⟨"atom", (10 : Int) ^ 19⟩], 2 ^ 63, "payer"⟩) false := by
  refine ⟨by decide, ?_, by decide⟩
  have hv : Dec.val ⟨(10 : Int) ^ 18⟩ * ((2 ^ 63 : Nat) : ℚ)
      = ((2 ^ 63 : Int) : ℚ) := by
    unfold Dec.val
    push_cast
    norm_num
  rw [hv, Int.ceil_intCast]
  norm_num

/-- Witness for C1: rate 0.1 atom, gas limit 100, declared fee 10 atom —
the required set is `some [10 atom]` (no panic), and the check passes. -/
theorem c1_min_fee_decision_rule_witness :
    feeParamAnteCore [⟨"atom", ⟨100000000000000000⟩⟩] ⟨true⟩
        (.feeTx ⟨[⟨"atom", 10⟩], 100, "payer"⟩) false
      = .next ⟨true⟩ (.feeTx ⟨[⟨"atom", 10⟩], 100, "payer"⟩) false :=
  ((c1_min_fee_decision_rule [⟨"atom", ⟨100000000000000000⟩⟩] ⟨true⟩
      ⟨[⟨"atom", 10⟩], 100, "payer"⟩ false [⟨"atom", 10⟩] rfl rfl (by decide)
      (by decide)).1).mpr
    ⟨⟨"atom", 10⟩, by decide, by decide⟩

/-- C5: `DeductFees` rejects an ill-formed fee set with an
`ErrInsufficientFee`-class error before issuing any transfer; on a
well-formed fee set it issues exactly the one transfer, wrapping a
transfer failure as `ErrInsufficientFunds` and returning success (`none`)
otherwise. -/
theorem c5_deduct_fees_contract (bk : BankKeeper) (acc : Account)
    (fees : Coins) :
    (Coins.IsValid fees = false →
        DeductFees bk acc fees = (some (.invalidFeeAmount fees), [])
          ∧ Err.IsInsufficientFee (.invalidFeeAmount fees) = true)
      ∧ (∀ msg, Coins.IsValid fees = true →
          bk.SendCoinsFromAccountToModule (Account.GetAddress acc)
              feeCollectorName fees = some msg →
          DeductFees bk acc fees = (some (.insufficientFunds msg),
            [⟨Account.GetAddress acc, feeCollectorName, fees⟩]))
      ∧ (Coins.IsValid fees = true →
          bk.SendCoinsFromAccountToModule (Account.GetAddress acc)
              feeCollectorName fees = none →
          DeductFees bk acc fees = (none,
            [⟨Account.GetAddress acc, feeCollectorName, fees⟩])) := by
  refine ⟨?_, ?_, ?_⟩
  · intro hbad
    unfold DeductFees
    simp [hbad, Err.IsInsufficientFee]
  · intro msg hok hsend
    unfold DeductFees
    simp [hok, hsend]
  · intro hok hsend
    unfold DeductFees
    simp [hok, hsend]

/-- Witness for C5: a valid single-coin fee with a succeeding transfer
yields success and exactly one recorded transfer call. -/
theorem c5_deduct_fees_contract_witness :
    DeductFees ⟨fun _ _ _ => none⟩ ⟨"payer"⟩ [⟨"atom", 5⟩]
      = (none, [⟨"payer", feeCollectorName, [⟨"atom", 5⟩]⟩]) :=
  (c5_deduct_fees_contract ⟨fun _ _ _ => none⟩ ⟨"payer"⟩
    [⟨"atom", 5⟩]).2.2 (by decide) rfl

/-- C6: when the collector account is configured and the fee payer's
address resolves to no account, the deduction handler returns the
unknown-address error naming the payer, issues no transfer, and does not
call `next`. -/
theorem c6_unknown_payer_rejected (dfd : DeductFeeDecorator) (ctx : Context)
    (t : FeeTx) (simulate : Bool) (collector : Addr)
    (hcoll : dfd.ak.GetModuleAddress feeCollectorName = some collector)
    (hacct : dfd.ak.GetAccount t.feePayer = none) :
    DeductFeeDecorator.AnteHandle dfd ctx (.feeTx t) simulate
      = (.error (.unknownAddress t.feePayer), []) := by
  simp only [DeductFeeDecorator.AnteHandle]
  rw [hcoll]
  simp [hacct]

/-- Witness for C6: a keeper that knows the collector module but no
accounts rejects the payer with the unknown-address error and an empty
transfer trace. -/
theorem c6_unknown_payer_rejected_witness :
    DeductFeeDecorator.AnteHandle
        ⟨⟨fun _ => some "collector", fun _ => none⟩, ⟨fun _ _ _ => none⟩, none⟩
        ⟨true⟩ (.feeTx ⟨[⟨"atom", 5⟩], 100, "payer"⟩) false
      = (.error (.unknownAddress "payer"), []) :=
  c6_unknown_payer_rejected
    ⟨⟨fun _ => some "collector", fun _ => none⟩, ⟨fun _ _ _ => none⟩, none⟩
    ⟨true⟩ ⟨[⟨"atom", 5⟩], 100, "payer"⟩ false "collector" rfl rfl

/-- C9: the deduction handler's behavior does not depend on the simulate
flag or on the CheckTx/deliver mode: two runs differing only in those
flags issue the same transfer calls and give the same outcome, the flags
being only forwarded in the tail call to `next`. -/
theorem c9_deduct_mode_independence (dfd : DeductFeeDecorator) (tx : Tx)
    (b1 b2 s1 s2 : Bool) :
    ((DeductFeeDecorator.AnteHandle dfd ⟨b1⟩ tx s1).2
        = (DeductFeeDecorator.AnteHandle dfd ⟨b2⟩ tx s2).2)
      ∧ (∀ m, (DeductFeeDecorator.AnteHandle dfd ⟨b1⟩ tx s1).1 = .panicked m
          ↔ (DeductFeeDecorator.AnteHandle dfd ⟨b2⟩ tx s2).1 = .panicked m)
      ∧ (∀ e, (DeductFeeDecorator.AnteHandle dfd ⟨b1⟩ tx s1).1 = .error e
          ↔ (DeductFeeDecorator.AnteHandle dfd ⟨b2⟩ tx s2).1 = .error e)
      ∧ ((DeductFeeDecorator.AnteHandle dfd ⟨b1⟩ tx s1).1 = .next ⟨b1⟩ tx s1
          ↔ (DeductFeeDecorator.AnteHandle dfd ⟨b2⟩ tx s2).1
            = .next ⟨b2⟩ tx s2) := by
  cases tx with
  | nonFeeTx => simp [DeductFeeDecorator.AnteHandle]
  | feeTx t =>
    simp only [DeductFeeDecorator.AnteHandle]
    cases hm : dfd.ak.GetModuleAddress feeCollectorName with
    | none => simp
    | some a =>
      cases ha : dfd.ak.GetAccount t.feePayer with
      | none => simp
      | some acc =>
        by_cases hz : Coins.IsZero t.fee
        · simp [hz]
        · simp only [hz]
          rcases hd : DeductFees dfd.bankKeeper acc t.fee with ⟨oe, calls⟩
          cases oe with
          | none => simp [hd]
          | some e => simp [hd]

end FeeApp
